import Mathlib

/-!
Verification of the sticker-label generator (`src/putaway.py`) against its
natural-language specification.  The Python program is shallowly embedded:
pandas cells become an inductive `Cell` (a value is either the float NaN or a
string; `str()` renders NaN as `"nan"`), a row of the dataframe becomes an
association list from column name to cell, and the reportlab flowable stream
becomes a list of `Flowable` values split into pages at `PageBreak` markers.
Physical lengths (reportlab points) are modelled as exact rationals with
`cm = 72 / 2.54 = 3600/127` points.
-/

namespace Putaway

/-- A scalar cell of the dataset: either missing (pandas NaN) or a string
value.  Numeric cells are subsumed by their `str()` rendering. -/
inductive Cell where
  | nan : Cell
  | s (v : String) : Cell
deriving DecidableEq, Repr

/-- Python `str()` applied to a cell: `str(float('nan')) = "nan"`. -/
def pyStr : Cell → String
  | .nan => "nan"
  | .s v => v

/-- `pd.notna`: true exactly on non-missing cells. -/
def notna : Cell → Bool
  | .nan => false
  | .s _ => true

/-- A dataframe row as produced by `df.iterrows()`: an association list from
column name to cell, keyed by the dataframe's (current) column names. -/
abbrev Row := List (String × Cell)

/-- `row[c]` lookup, as an `Option`; `none` means the key is absent (pandas
would raise `KeyError`; the program only looks up names drawn from
`df.columns`, so the `none` case is never hit at call sites). -/
def rowGet (row : Row) (c : String) : Option Cell :=
  (row.find? (fun kv => kv.1 = c)).map (fun kv => kv.2)

/-- Python `\s` for the ASCII range (the characters relevant here): space,
tab, newline, carriage return, vertical tab, form feed. -/
def pyIsSpace (c : Char) : Bool :=
  c = ' ' || c = '\t' || c = '\n' || c = '\r' || c = '\x0b' || c = '\x0c'

/-- A separator character of the location tokenizer: whitespace or
underscore (the regex `[^_\s]` complements exactly these). -/
def isSepChar (c : Char) : Bool :=
  pyIsSpace c || c = '_'

/-- Python `str.strip()`: drop leading and trailing whitespace. -/
def pyStrip (s : String) : String :=
  ⟨((s.data.dropWhile pyIsSpace).reverse.dropWhile pyIsSpace).reverse⟩

/-- Worker for `re.findall(r'([^_\s]+)', s)`: scans the characters left to
right, accumulating the current run of non-separator characters (in reverse)
in `acc` and emitting each finished maximal run. -/
def runsAux : List Char → List Char → List (List Char)
  | [], acc => if acc.isEmpty then [] else [acc.reverse]
  | c :: cs, acc =>
    if isSepChar c then
      if acc.isEmpty then runsAux cs [] else acc.reverse :: runsAux cs []
    else
      runsAux cs (c :: acc)

/-- `re.findall(r'([^_\s]+)', s)`: the maximal runs of characters that are
neither whitespace nor underscore, in order of occurrence. -/
def findallTokens (s : String) : List String :=
  (runsAux s.data []).map (fun cs => ⟨cs⟩)

/-- The loop `for i, match in enumerate(matches[:7]): location_parts[i] = match`:
write the first (at most) seven tokens into the slot list left to right. -/
def fillParts (parts : List String) (ms : List String) : List String :=
  ((ms.take 7).enum).foldl (fun acc im => acc.set im.1 im.2) parts

/-- `parse_location_string` (src/putaway.py:82-101).  `none` models a missing
or non-string argument (the `isinstance` guard); the empty string is falsy in
Python, hence the early return. -/
def parse_location_string (location_str : Option String) : List String :=
  let location_parts := List.replicate 7 ""
  match location_str with
  | none => location_parts
  | some s =>
    if s = "" then location_parts
    else fillParts location_parts (findallTokens (pyStrip s))

end Putaway

namespace Putaway

lemma fillParts_replicate :
    ∀ ms : List String,
      fillParts (List.replicate 7 "") ms =
        ms.take 7 ++ List.replicate (7 - ms.length) ""
  | [] => rfl
  | [_] => rfl
  | [_, _] => rfl
  | [_, _, _] => rfl
  | [_, _, _, _] => rfl
  | [_, _, _, _, _] => rfl
  | [_, _, _, _, _, _] => rfl
  | a :: b :: c :: d :: e :: f :: g :: rest => by
      have h0 : 7 - (a :: b :: c :: d :: e :: f :: g :: rest).length = 0 := by
        simp only [List.length_cons]
        omega
      rw [h0]
      rfl

lemma runsAux_ne_nil :
    ∀ (cs acc : List Char), ∀ t ∈ runsAux cs acc, t ≠ []
  | [], acc => by
      intro t ht
      unfold runsAux at ht
      by_cases h : acc.isEmpty
      · simp [h] at ht
      · simp [h] at ht
        subst ht
        intro hrev
        exact h (by simpa [List.isEmpty_iff] using List.reverse_eq_nil_iff.mp hrev)
  | c :: cs, acc => by
      intro t ht
      unfold runsAux at ht
      by_cases hsep : isSepChar c
      · by_cases h : acc.isEmpty
        · simp [hsep, h] at ht
          exact runsAux_ne_nil cs [] t ht
        · simp [hsep, h] at ht
          rcases ht with ht | ht
          · subst ht
            intro hrev
            exact h (by simpa [List.isEmpty_iff] using List.reverse_eq_nil_iff.mp hrev)
          · exact runsAux_ne_nil cs [] t ht
      · simp [hsep] at ht
        exact runsAux_ne_nil cs (c :: acc) t ht

lemma runsAux_sepFree :
    ∀ (cs acc : List Char), (∀ c ∈ acc, isSepChar c = false) →
      ∀ t ∈ runsAux cs acc, ∀ c ∈ t, isSepChar c = false
  | [], acc => by
      intro hacc t ht c hc
      unfold runsAux at ht
      by_cases h : acc.isEmpty
      · simp [h] at ht
      · simp [h] at ht
        subst ht
        exact hacc c (List.mem_reverse.mp hc)
  | c₀ :: cs, acc => by
      intro hacc t ht c hc
      unfold runsAux at ht
      by_cases hsep : isSepChar c₀
      · by_cases h : acc.isEmpty
        · simp [hsep, h] at ht
          exact runsAux_sepFree cs [] (by simp) t ht c hc
        · simp [hsep, h] at ht
          rcases ht with ht | ht
          · subst ht
            exact hacc c (List.mem_reverse.mp hc)
          · exact runsAux_sepFree cs [] (by simp) t ht c hc
      · simp [hsep] at ht
        have : ∀ x ∈ c₀ :: acc, isSepChar x = false := by
          intro x hx
          rcases List.mem_cons.mp hx with hx | hx
          · subst hx
            simpa using hsep
          · exact hacc x hx
        exact runsAux_sepFree cs (c₀ :: acc) this t ht c hc

lemma findallTokens_ne_empty (s : String) :
    ∀ t ∈ findallTokens s, t ≠ "" := by
  intro t ht
  unfold findallTokens at ht
  rcases List.mem_map.mp ht with ⟨cs, hcs, rfl⟩
  have := runsAux_ne_nil s.data [] cs hcs
  intro h
  apply this
  have : (⟨cs⟩ : String).data = ("" : String).data := by rw [h]
  simpa using this

lemma findallTokens_sepFree (s : String) :
    ∀ t ∈ findallTokens s, ∀ c ∈ t.data, isSepChar c = false := by
  intro t ht c hc
  unfold findallTokens at ht
  rcases List.mem_map.mp ht with ⟨cs, hcs, rfl⟩
  exact runsAux_sepFree s.data [] (by simp) cs hcs c hc

/-- Claim C1: `parse_location_string` always returns a list of exactly 7
strings; a missing / non-string input, and an input that is blank after
trimming, give 7 empty strings; otherwise the maximal runs of characters that
are neither whitespace nor underscore fill the slots left to right in order
of occurrence, trailing slots stay empty, tokens beyond the 7th are dropped,
and every token placed in a slot is nonempty and free of separator
characters.  The function is total, so no input raises an error. -/
theorem location_tokenizer_c1 (input : Option String) :
    (parse_location_string input).length = 7 ∧
    (input = none → parse_location_string input = List.replicate 7 "") ∧
    (∀ s, input = some s →
      parse_location_string input =
        (findallTokens (pyStrip s)).take 7 ++
          List.replicate (7 - (findallTokens (pyStrip s)).length) "" ∧
      (findallTokens (pyStrip s) = [] →
        parse_location_string input = List.replicate 7 "") ∧
      (parse_location_string input).filter (fun t => t ≠ "") =
        (findallTokens (pyStrip s)).take 7 ∧
      (∀ t ∈ (parse_location_string input).filter (fun t => t ≠ ""),
        ∀ c ∈ t.data, isSepChar c = false)) := by
  have main : ∀ s : String, parse_location_string (some s) =
      (findallTokens (pyStrip s)).take 7 ++
        List.replicate (7 - (findallTokens (pyStrip s)).length) "" := by
    intro s
    by_cases hs : s = ""
    · subst hs
      rfl
    · show (if s = "" then List.replicate 7 ""
        else fillParts (List.replicate 7 "") (findallTokens (pyStrip s))) = _
      rw [if_neg hs, fillParts_replicate]
  constructor
  · -- length is always 7
    cases input with
    | none => rfl
    | some s =>
      rw [main s]
      have hlen := List.length_take 7 (findallTokens (pyStrip s))
      simp only [List.length_append, hlen, List.length_replicate]
      omega
  constructor
  · rintro rfl
    rfl
  · rintro s rfl
    refine ⟨main s, ?_, ?_, ?_⟩
    · intro hnil
      rw [main s, hnil]
      rfl
    · rw [main s]
      rw [List.filter_append]
      have h1 : ((findallTokens (pyStrip s)).take 7).filter (fun t => t ≠ "") =
          (findallTokens (pyStrip s)).take 7 := by
        rw [List.filter_eq_self]
        intro a ha
        have : a ∈ findallTokens (pyStrip s) := List.mem_of_mem_take ha
        simpa using findallTokens_ne_empty (pyStrip s) a this
      have h2 : (List.replicate (7 - (findallTokens (pyStrip s)).length)
          ("" : String)).filter (fun t => t ≠ "") = [] := by
        rw [List.filter_eq_nil_iff]
        intro a ha
        have : a = "" := List.eq_of_mem_replicate ha
        simp [this]
      rw [h1, h2, List.append_nil]
    · intro t ht c hc
      rw [main s, List.filter_append] at ht
      rcases List.mem_append.mp ht with ht | ht
      · have : t ∈ findallTokens (pyStrip s) :=
          List.mem_of_mem_take (List.mem_of_mem_filter ht)
        exact findallTokens_sepFree (pyStrip s) t this c hc
      · have hmem := List.mem_of_mem_filter ht
        have : t = "" := List.eq_of_mem_replicate hmem
        subst this
        simp at hc

/-- Witness for C1 at the concrete input `"R1_A2 B3"`: three tokens land in
the first three of the seven slots. -/
theorem location_tokenizer_c1_witness :
    parse_location_string (some "R1_A2 B3") =
      ["R1", "A2", "B3", "", "", "", ""] := by
  have h := (location_tokenizer_c1 (some "R1_A2 B3")).2.2 "R1_A2 B3" rfl
  rw [h.1]
  decide

end Putaway

namespace Putaway

/-- Does `pat` occur as a contiguous segment of the character list? -/
def listHasSeg (pat : List Char) : List Char → Bool
  | [] => pat.isEmpty
  | c :: cs => pat.isPrefixOf (c :: cs) || listHasSeg pat cs

/-- Python substring test `pat in s`. -/
def strContains (s pat : String) : Bool :=
  listHasSeg pat.data s.data

/-- Python `str.upper()` for the ASCII range: uppercase every character. -/
def pyUpper (s : String) : String :=
  ⟨s.data.map Char.toUpper⟩

/-- GRN heuristic, first rule: `'GRN' in col and ('NO' in col or 'NUM' in col
or '#' in col)` (src/putaway.py:128). -/
def grnP (c : String) : Bool :=
  strContains c "GRN" && (strContains c "NO" || strContains c "NUM" || strContains c "#")

/-- GRN heuristic, second rule: `col in ['GRN', 'GRNNO', 'GRN_NO']`. -/
def grnExactP (c : String) : Bool :=
  c = "GRN" || c = "GRNNO" || c = "GRN_NO"

/-- GRN heuristic, third rule: `'GOODS' in col and 'RECEIPT' in col`. -/
def goodsReceiptP (c : String) : Bool :=
  strContains c "GOODS" && strContains c "RECEIPT"

/-- Part-number heuristic, first rule (src/putaway.py:133). -/
def partP (c : String) : Bool :=
  strContains c "PART" && (strContains c "NO" || strContains c "NUM" || strContains c "#")

/-- Part-number heuristic, second rule: `col in ['PARTNO', 'PART']`. -/
def partExactP (c : String) : Bool :=
  c = "PARTNO" || c = "PART"

/-- Description heuristic, first rule: `'DESC' in col` (src/putaway.py:136). -/
def descP (c : String) : Bool :=
  strContains c "DESC"

/-- Description heuristic, second rule: `'NAME' in col`. -/
def nameP (c : String) : Bool :=
  strContains c "NAME"

/-- Location heuristic, first rule: `'PUT' in col and 'AWAY' in col`
(src/putaway.py:140). -/
def putAwayP (c : String) : Bool :=
  strContains c "PUT" && strContains c "AWAY"

/-- Location heuristic, second rule: `'PUTAWAY' in col`. -/
def putAwayJoinedP (c : String) : Bool :=
  strContains c "PUTAWAY"

/-- Location heuristic, third rule: `'LOC' in col or 'POS' in col or
'LOCATION' in col`. -/
def locP (c : String) : Bool :=
  strContains c "LOC" || strContains c "POS" || strContains c "LOCATION"

/-- Receipt-date heuristic, first rule: `'RECEIPT' in col and 'DATE' in col`
(src/putaway.py:146). -/
def receiptDateP (c : String) : Bool :=
  strContains c "RECEIPT" && strContains c "DATE"

/-- Receipt-date heuristic, second rule: `'RECEIPTDATE' in col or
'RECEIPT_DATE' in col`. -/
def receiptDateJoinedP (c : String) : Bool :=
  strContains c "RECEIPTDATE" || strContains c "RECEIPT_DATE"

/-- Receipt-date heuristic, third rule: `'DATE' in col`. -/
def dateP (c : String) : Bool :=
  strContains c "DATE"

/-- `grn_col` (src/putaway.py:128-130): three prioritized `next(...)`
fallbacks, first match wins, default `None`. -/
def grn_col (cols : List String) : Option String :=
  (cols.find? grnP).orElse fun _ =>
    (cols.find? grnExactP).orElse fun _ => cols.find? goodsReceiptP

/-- The resolved role map (spec §3 RoleMap).  `part`, `desc` and `loc` always
resolve to some column once the dataset has at least one column; `grn` and
`date` may stay unresolved. -/
structure RoleMap where
  grn : Option String
  part : String
  desc : String
  loc : String
  date : Option String
deriving DecidableEq, Repr

/-- Errors observable before the external document build. -/
inductive RunError where
  | indexError : RunError
deriving DecidableEq, Repr

/-- Column resolution (src/putaway.py:123-148), applied to the (already
uppercased) column list.  With zero columns, Python eagerly evaluates the
fallback argument `cols[0]` of the part-number chain and raises `IndexError`;
we surface that as `.error .indexError`.  Otherwise the chains of `next(...)`
calls become `find?` with `orElse` fallbacks. -/
def resolveAll (cols : List String) : Except RunError RoleMap :=
  match cols with
  | [] => .error .indexError
  | c0 :: rest =>
    let cols := c0 :: rest
    let grn := grn_col cols
    let part := ((cols.find? partP).orElse fun _ => cols.find? partExactP).getD c0
    let desc := ((cols.find? descP).orElse fun _ => cols.find? nameP).getD
      ((cols.get? 1).getD part)
    let loc := ((cols.find? putAwayP).orElse fun _ =>
      (cols.find? putAwayJoinedP).orElse fun _ => cols.find? locP).getD
      ((cols.get? 2).getD desc)
    let date := (cols.find? receiptDateP).orElse fun _ =>
      (cols.find? receiptDateJoinedP).orElse fun _ => cols.find? dateP
    .ok ⟨grn, part, desc, loc, date⟩

/-- Line 124: `df.columns = [col.upper() if isinstance(col, str) else col
for col in df.columns]`, uppercasing every column name (all column names in
scope are strings, so the `isinstance` branch always fires). -/
def upperCols (cols : List String) : List String :=
  cols.map pyUpper

/-- The five headers of claim C2, after case folding. -/
def fiveHeaders : List String :=
  ["GRN_NO", "PARTNUMBER", "DESC", "STORE_LOCATION", "RECEIPTDATE"]

lemma find?_eq_some_of_unique {p : String → Bool} :
    ∀ {l : List String} {x : String}, x ∈ l → p x = true →
      (∀ y ∈ l, p y = true → y = x) → l.find? p = some x := by
  intro l
  induction l with
  | nil => intro x hx; simp at hx
  | cons a t ih =>
    intro x hx hpx huniq
    by_cases hpa : p a = true
    · have hax : a = x := huniq a (List.mem_cons_self a t) hpa
      subst hax
      simp [List.find?, hpa]
    · have hxa : x ≠ a := by
        intro h
        subst h
        exact hpa hpx
      have hxt : x ∈ t := by
        rcases List.mem_cons.mp hx with h | h
        · exact absurd h hxa
        · exact h
      have : t.find? p = some x :=
        ih hxt hpx (fun y hy hp => huniq y (List.mem_cons_of_mem a hy) hp)
      simp [List.find?, hpa, this]

lemma find?_eq_none_of_all {p : String → Bool} {l : List String}
    (h : ∀ y ∈ l, p y = false) : l.find? p = none := by
  rw [List.find?_eq_none]
  intro x hx
  simp [h x hx]

/-- Claim C2: on any column list whose case-folded names are a permutation of
`GRN_NO`, `PartNumber`, `Desc`, `Store_Location`, `ReceiptDate`, the resolver
assigns each of the five roles to its intended header, independently of
declaration order and of the original letter case. -/
theorem column_resolver_c2 (cols : List String)
    (h : (upperCols cols).Perm fiveHeaders) :
    resolveAll (upperCols cols) =
      .ok ⟨some "GRN_NO", "PARTNUMBER", "DESC", "STORE_LOCATION",
        some "RECEIPTDATE"⟩ := by
  have hmem : ∀ x, x ∈ upperCols cols ↔ x ∈ fiveHeaders := fun x => h.mem_iff
  have huniq : ∀ (p : String → Bool) (x : String),
      (∀ y ∈ fiveHeaders, p y = true → y = x) →
      ∀ y ∈ upperCols cols, p y = true → y = x := by
    intro p x hy y hmem' hp
    exact hy y ((hmem y).mp hmem') hp
  have hgrn : (upperCols cols).find? grnP = some "GRN_NO" :=
    find?_eq_some_of_unique ((hmem _).mpr (by decide)) (by decide)
      (huniq _ _ (by decide))
  have hpart : (upperCols cols).find? partP = some "PARTNUMBER" :=
    find?_eq_some_of_unique ((hmem _).mpr (by decide)) (by decide)
      (huniq _ _ (by decide))
  have hdesc : (upperCols cols).find? descP = some "DESC" :=
    find?_eq_some_of_unique ((hmem _).mpr (by decide)) (by decide)
      (huniq _ _ (by decide))
  have hputAll : ∀ y ∈ fiveHeaders, putAwayP y = false := by decide
  have hput2All : ∀ y ∈ fiveHeaders, putAwayJoinedP y = false := by decide
  have hput : (upperCols cols).find? putAwayP = none :=
    find?_eq_none_of_all (fun y hy => hputAll y ((hmem y).mp hy))
  have hput2 : (upperCols cols).find? putAwayJoinedP = none :=
    find?_eq_none_of_all (fun y hy => hput2All y ((hmem y).mp hy))
  have hloc : (upperCols cols).find? locP = some "STORE_LOCATION" :=
    find?_eq_some_of_unique ((hmem _).mpr (by decide)) (by decide)
      (huniq _ _ (by decide))
  have hdate : (upperCols cols).find? receiptDateP = some "RECEIPTDATE" :=
    find?_eq_some_of_unique ((hmem _).mpr (by decide)) (by decide)
      (huniq _ _ (by decide))
  have hne : upperCols cols ≠ [] := by
    intro hnil
    have := h.length_eq
    rw [hnil] at this
    simp [fiveHeaders] at this
  obtain ⟨c0, rest, hcr⟩ := List.exists_cons_of_ne_nil hne
  rw [hcr] at hgrn hpart hdesc hput hput2 hloc hdate ⊢
  simp only [resolveAll, grn_col, hgrn, hpart, hdesc, hput, hput2, hloc, hdate]
  rfl

/-- Witness for C2: the five headers given in mixed case and in a shuffled
order still resolve to the intended roles. -/
theorem column_resolver_c2_witness :
    (upperCols ["PartNumber", "GRN_no", "ReceiptDate", "desc",
        "Store_Location"]).Perm fiveHeaders ∧
      resolveAll (upperCols ["PartNumber", "GRN_no", "ReceiptDate", "desc",
        "Store_Location"]) =
        .ok ⟨some "GRN_NO", "PARTNUMBER", "DESC", "STORE_LOCATION",
          some "RECEIPTDATE"⟩ :=
  ⟨by decide, column_resolver_c2 _ (by decide)⟩

end Putaway

namespace Putaway

/-- `grn_no = str(row[grn_col]) if grn_col and grn_col in row and
pd.notna(row[grn_col]) else ""` (src/putaway.py:188). -/
def extract_grn (grn_col : Option String) (row : Row) : String :=
  match grn_col with
  | none => ""
  | some c =>
    match rowGet row c with
    | some v => if notna v then pyStr v else ""
    | none => ""

/-- `part_no = str(row[part_no_col])` (src/putaway.py:189); the column is
always one of the dataframe's columns, so the lookup never misses. -/
def extract_part (part_col : String) (row : Row) : String :=
  pyStr ((rowGet row part_col).getD Cell.nan)

/-- `desc = str(row[desc_col])` (src/putaway.py:190). -/
def extract_desc (desc_col : String) (row : Row) : String :=
  pyStr ((rowGet row desc_col).getD Cell.nan)

/-- `put_away_zone = str(row[put_away_col]) if put_away_col and put_away_col
in row else ""` (src/putaway.py:191) — note: no `notna` guard here. -/
def extract_put_away (put_away_col : String) (row : Row) : String :=
  match rowGet row put_away_col with
  | some v => pyStr v
  | none => ""

/-- `receipt_date = str(row[receipt_date_col]) if receipt_date_col and
receipt_date_col in row and pd.notna(row[receipt_date_col]) else ""`
(src/putaway.py:192). -/
def extract_receipt_date (receipt_date_col : Option String) (row : Row) :
    String :=
  match receipt_date_col with
  | none => ""
  | some c =>
    match rowGet row c with
    | some v => if notna v then pyStr v else ""
    | none => ""

/-- Python `" " in receipt_date`. -/
def containsSpace (s : String) : Bool :=
  s.data.contains ' '

/-- Python `receipt_date.split(" ")[0]`: the (possibly empty) prefix before
the first space character. -/
def beforeFirstSpace (s : String) : String :=
  ⟨s.data.takeWhile (fun c => c ≠ ' ')⟩

/-- Receipt-date cleaning (src/putaway.py:203-212).  `if receipt_date and
receipt_date != "nan":` guards the whole block (empty string is falsy); the
inner `try` can never fail, so the `except` arm is dead code. -/
def clean_receipt_date (receipt_date : String) : String :=
  if receipt_date = "" then ""
  else if receipt_date = "nan" then ""
  else if containsSpace receipt_date then beforeFirstSpace receipt_date
  else receipt_date

/-- The QR payload f-string (src/putaway.py:215). -/
def qr_data (grn_no part_no desc put_away_zone clean_date : String) : String :=
  "GRN No: " ++ grn_no ++ "\nPart No: " ++ part_no ++
    "\nDescription: " ++ desc ++ "\nPut Away Zone/Location: " ++
    put_away_zone ++ "\nReceipt Date: " ++ clean_date

/-- Description cell of the rendered label (src/putaway.py:223):
`desc[:47] + "..." if len(desc) > 50 else desc`. -/
def displayDesc (desc : String) : String :=
  if desc.length > 50 then ⟨desc.data.take 47⟩ ++ "..." else desc

end Putaway

namespace Putaway

/-- Claim C3: a missing, empty or literal-`"nan"` receipt date cleans to the
empty string; a value containing a space cleans to the prefix before the
first space; any other value is unchanged; and in particular
`"2024-05-01 10:30:00"` cleans to `"2024-05-01"` while `"2024-05-01"` stays
unchanged.  The first two conjuncts also cover the extraction step, which
maps an unresolved column or a NaN cell to `""`. -/
theorem receipt_date_cleaning_c3 (receipt_date : String) :
    (∀ row : Row, extract_receipt_date none row = "" ∧
      ∀ c, rowGet row c = some Cell.nan →
        extract_receipt_date (some c) row = "") ∧
    (receipt_date = "" ∨ receipt_date = "nan" →
      clean_receipt_date receipt_date = "") ∧
    (receipt_date ≠ "" → receipt_date ≠ "nan" →
      containsSpace receipt_date = true →
      clean_receipt_date receipt_date = beforeFirstSpace receipt_date) ∧
    (receipt_date ≠ "" → receipt_date ≠ "nan" →
      containsSpace receipt_date = false →
      clean_receipt_date receipt_date = receipt_date) ∧
    clean_receipt_date "2024-05-01 10:30:00" = "2024-05-01" ∧
    clean_receipt_date "2024-05-01" = "2024-05-01" := by
  refine ⟨?_, ?_, ?_, ?_, by decide, by decide⟩
  · intro row
    refine ⟨rfl, ?_⟩
    intro c hc
    simp [extract_receipt_date, hc, notna]
  · rintro (h | h) <;> simp [clean_receipt_date, h]
  · intro h1 h2 h3
    simp [clean_receipt_date, h1, h2, h3]
  · intro h1 h2 h3
    simp [clean_receipt_date, h1, h2, h3]

/-- Witness for C3 at concrete inputs: a timestamped date is cut at the first
space, and a NaN cell under a resolved date column extracts to `""`. -/
theorem receipt_date_cleaning_c3_witness :
    containsSpace "2024-05-01 10:30:00" = true ∧
    clean_receipt_date "2024-05-01 10:30:00" =
      beforeFirstSpace "2024-05-01 10:30:00" ∧
    rowGet [("RECEIPTDATE", Cell.nan)] "RECEIPTDATE" = some Cell.nan ∧
    extract_receipt_date (some "RECEIPTDATE") [("RECEIPTDATE", Cell.nan)] = "" := by
  have h := receipt_date_cleaning_c3 "2024-05-01 10:30:00"
  exact ⟨by decide,
    h.2.2.1 (by decide) (by decide) (by decide),
    by decide,
    (h.1 [("RECEIPTDATE", Cell.nan)]).2 "RECEIPTDATE" (by decide)⟩

end Putaway

namespace Putaway

/-- Split a character list at newline characters (the separators are
consumed); the result always has one more entry than the number of
newlines. -/
def splitNL : List Char → List (List Char)
  | [] => [[]]
  | c :: cs =>
    if c = '\n' then [] :: splitNL cs
    else
      match splitNL cs with
      | [] => [[c]]
      | l :: ls => (c :: l) :: ls

lemma strData_append (a b : String) : (a ++ b).data = a.data ++ b.data := by
  cases a
  cases b
  rfl

lemma splitNL_ne_nil : ∀ cs : List Char, splitNL cs ≠ []
  | [] => by simp [splitNL]
  | c :: cs => by
      unfold splitNL
      by_cases h : c = '\n'
      · simp [h]
      · simp only [h, if_false]
        cases splitNL cs <;> simp

lemma splitNL_no_newline : ∀ cs : List Char, '\n' ∉ cs → splitNL cs = [cs]
  | [] => fun _ => rfl
  | c :: cs => by
      intro h
      have hc : ¬ c = '\n' := fun hh => h (hh ▸ List.mem_cons_self c cs)
      have hcs : '\n' ∉ cs := fun hh => h (List.mem_cons_of_mem c hh)
      unfold splitNL
      rw [if_neg hc, splitNL_no_newline cs hcs]

lemma splitNL_cons_of_ne (x : Char) (cs : List Char) (hx : ¬ x = '\n') :
    splitNL (x :: cs) =
      match splitNL cs with
      | [] => [[x]]
      | l :: ls => (x :: l) :: ls := by
  conv_lhs => rw [splitNL]
  rw [if_neg hx]

lemma splitNL_append :
    ∀ xs ys : List Char, '\n' ∉ xs →
      splitNL (xs ++ '\n' :: ys) = xs :: splitNL ys
  | [], ys => by
      intro _
      simp [splitNL]
  | x :: xs, ys => by
      intro h
      have hx : ¬ x = '\n' := fun hh => h (hh ▸ List.mem_cons_self x xs)
      have hxs : '\n' ∉ xs := fun hh => h (List.mem_cons_of_mem x hh)
      have ih := splitNL_append xs ys hxs
      rw [List.cons_append, splitNL_cons_of_ne x _ hx, ih]

/-- Counterexample to claim C4 as stated: for a record whose description cell
contains a newline (as a multi-line spreadsheet cell does), the QR payload
splits into six newline-separated pieces, not five. -/
theorem qr_payload_c4_counterexample :
    (splitNL (qr_data "G1" "P1" "Line1\nLine2" "L1" "2024-05-01").data).length
        = 6 ∧
      (splitNL (qr_data "G1" "P1" "Line1\nLine2" "L1"
        "2024-05-01").data).length ≠ 5 := by
  constructor
  · decide
  · decide

/-- Claim C4 as amended: provided the five field values themselves contain no
newline character, the QR payload splits at newlines into exactly the five
labeled lines, in the fixed order GRN No, Part No, Description, Put Away
Zone/Location, Receipt Date; a missing optional field keeps its line with an
empty value after the label; and the builder is deterministic (equal field
inputs give identical payload text). -/
theorem qr_payload_c4 (g p d l r : String)
    (hg : '\n' ∉ g.data) (hp : '\n' ∉ p.data) (hd : '\n' ∉ d.data)
    (hl : '\n' ∉ l.data) (hr : '\n' ∉ r.data) :
    splitNL (qr_data g p d l r).data =
      [("GRN No: " ++ g).data, ("Part No: " ++ p).data,
        ("Description: " ++ d).data, ("Put Away Zone/Location: " ++ l).data,
        ("Receipt Date: " ++ r).data] ∧
    (splitNL (qr_data g p d l r).data).length = 5 ∧
    (∀ g' p' d' l' r', g = g' → p = p' → d = d' → l = l' → r = r' →
      qr_data g p d l r = qr_data g' p' d' l' r') := by
  have hkey : (qr_data g p d l r).data =
      ("GRN No: " ++ g).data ++ '\n' ::
        (("Part No: " ++ p).data ++ '\n' ::
          (("Description: " ++ d).data ++ '\n' ::
            (("Put Away Zone/Location: " ++ l).data ++ '\n' ::
              ("Receipt Date: " ++ r).data))) := by
    simp only [qr_data, strData_append, List.append_assoc]
    rfl
  have seg : ∀ (lit : String) (v : String), '\n' ∉ lit.data → '\n' ∉ v.data →
      '\n' ∉ (lit ++ v).data := by
    intro lit v hlit hv hmem
    rw [strData_append] at hmem
    rcases List.mem_append.mp hmem with h | h
    · exact hlit h
    · exact hv h
  have h1 : '\n' ∉ ("GRN No: " ++ g).data := seg _ _ (by decide) hg
  have h2 : '\n' ∉ ("Part No: " ++ p).data := seg _ _ (by decide) hp
  have h3 : '\n' ∉ ("Description: " ++ d).data := seg _ _ (by decide) hd
  have h4 : '\n' ∉ ("Put Away Zone/Location: " ++ l).data :=
    seg _ _ (by decide) hl
  have h5 : '\n' ∉ ("Receipt Date: " ++ r).data := seg _ _ (by decide) hr
  have hsplit : splitNL (qr_data g p d l r).data =
      [("GRN No: " ++ g).data, ("Part No: " ++ p).data,
        ("Description: " ++ d).data, ("Put Away Zone/Location: " ++ l).data,
        ("Receipt Date: " ++ r).data] := by
    rw [hkey, splitNL_append _ _ h1, splitNL_append _ _ h2,
      splitNL_append _ _ h3, splitNL_append _ _ h4, splitNL_no_newline _ h5]
  refine ⟨hsplit, by rw [hsplit]; rfl, ?_⟩
  rintro g' p' d' l' r' rfl rfl rfl rfl rfl
  rfl

/-- Witness for the amended C4: all-empty optional fields still give five
lines, each label present with an empty value where the field is missing. -/
theorem qr_payload_c4_witness :
    ('\n' ∉ ("" : String).data) ∧
    splitNL (qr_data "" "P-99" "Widget" "A_B" "").data =
      [("GRN No: " ++ "").data, ("Part No: " ++ "P-99").data,
        ("Description: " ++ "Widget").data,
        ("Put Away Zone/Location: " ++ "A_B").data,
        ("Receipt Date: " ++ "").data] :=
  ⟨by decide,
    (qr_payload_c4 "" "P-99" "Widget" "A_B" "" (by decide) (by decide)
      (by decide) (by decide) (by decide)).1⟩

end Putaway

namespace Putaway

/-- `pat` occurs as a contiguous segment of `s`. -/
def containsSeg (pat s : List Char) : Prop :=
  ∃ a b, s = a ++ (pat ++ b)

/-- The data content of one composed label (spec §4.4): the three-row main
block (GRN No / Part No / truncated Description), the seven location slots,
the cleaned date of the bottom row and the QR payload text handed to the QR
encoder (src/putaway.py:185-353, data content only — the fixed fonts, grid
styles and column widths are carried by the geometry model below). -/
structure Label where
  grn_no : String
  part_no : String
  descShown : String
  location_parts : List String
  clean_date : String
  qrPayload : String
deriving DecidableEq, Repr

/-- One loop iteration of `generate_sticker_labels` (src/putaway.py:179-353)
restricted to the data it puts on the sticker. -/
def makeLabel (rm : RoleMap) (row : Row) : Label :=
  let grn_no := extract_grn rm.grn row
  let part_no := extract_part rm.part row
  let desc := extract_desc rm.desc row
  let put_away_zone := extract_put_away rm.loc row
  let receipt_date := extract_receipt_date rm.date row
  let location_parts := parse_location_string (some put_away_zone)
  let clean_date := clean_receipt_date receipt_date
  { grn_no := grn_no
    part_no := part_no
    descShown := displayDesc desc
    location_parts := location_parts
    clean_date := clean_date
    qrPayload := qr_data grn_no part_no desc put_away_zone clean_date }

lemma qr_data_desc_chunks (g p d l r : String) :
    qr_data g p d l r =
      ("GRN No: " ++ g ++ "\nPart No: " ++ p ++ "\nDescription: ") ++
        (d ++ ("\nPut Away Zone/Location: " ++ l ++ "\nReceipt Date: " ++ r)) := by
  simp only [qr_data, String.append_assoc]

lemma containsSeg_of_chunks (pre mid suf : String) :
    containsSeg mid.data (pre ++ (mid ++ suf)).data :=
  ⟨pre.data, suf.data, by rw [strData_append, strData_append]⟩

/-- Claim C7: a description longer than 50 characters is rendered as its
first 47 characters followed by `"..."`; one of at most 50 characters is
rendered unchanged; and in both cases the QR payload of the same record
embeds the full untruncated description (the truncation is display-only). -/
theorem description_truncation_c7 (rm : RoleMap) (row : Row) :
    ((extract_desc rm.desc row).length > 50 →
      (makeLabel rm row).descShown =
        (⟨(extract_desc rm.desc row).data.take 47⟩ : String) ++ "...") ∧
    ((extract_desc rm.desc row).length ≤ 50 →
      (makeLabel rm row).descShown = extract_desc rm.desc row) ∧
    containsSeg (extract_desc rm.desc row).data
      (makeLabel rm row).qrPayload.data ∧
    (makeLabel rm row).qrPayload =
      qr_data (makeLabel rm row).grn_no (makeLabel rm row).part_no
        (extract_desc rm.desc row) (extract_put_away rm.loc row)
        (makeLabel rm row).clean_date := by
  refine ⟨?_, ?_, ?_, rfl⟩
  · intro h
    show displayDesc (extract_desc rm.desc row) = _
    rw [displayDesc, if_pos h]
  · intro h
    show displayDesc (extract_desc rm.desc row) = _
    rw [displayDesc, if_neg (by omega)]
  · show containsSeg (extract_desc rm.desc row).data
      (qr_data _ _ (extract_desc rm.desc row) _ _).data
    rw [qr_data_desc_chunks]
    exact containsSeg_of_chunks _ _ _

/-- Witness for C7: a 55-character description is shown truncated to 47
characters plus the ellipsis while the payload still carries all 55. -/
theorem description_truncation_c7_witness :
    (extract_desc "DESC"
        [("DESC", Cell.s "0123456789012345678901234567890123456789012345678901234")]).length
        > 50 ∧
    (makeLabel ⟨none, "DESC", "DESC", "DESC", none⟩
        [("DESC", Cell.s "0123456789012345678901234567890123456789012345678901234")]).descShown
      = (⟨(extract_desc "DESC"
          [("DESC", Cell.s "0123456789012345678901234567890123456789012345678901234")]).data.take 47⟩ : String)
        ++ "..." :=
  ⟨by decide,
    (description_truncation_c7 ⟨none, "DESC", "DESC", "DESC", none⟩
      [("DESC", Cell.s "0123456789012345678901234567890123456789012345678901234")]).1
      (by decide)⟩

end Putaway

namespace Putaway

lemma qr_data_part_chunks (g p d l r : String) :
    qr_data g p d l r =
      ("GRN No: " ++ g) ++
        (("\nPart No: " ++ p) ++
          ("\nDescription: " ++ d ++ "\nPut Away Zone/Location: " ++ l ++
            "\nReceipt Date: " ++ r)) := by
  simp only [qr_data, String.append_assoc]

lemma qr_data_desc_mid_chunks (g p d l r : String) :
    qr_data g p d l r =
      ("GRN No: " ++ g ++ "\nPart No: " ++ p) ++
        (("\nDescription: " ++ d) ++
          ("\nPut Away Zone/Location: " ++ l ++ "\nReceipt Date: " ++ r)) := by
  simp only [qr_data, String.append_assoc]

/-- Claim C10: a NaN part-number or description cell is rendered as the
literal string `"nan"` both on the label and inside the QR payload (the
`str()` conversion has no `notna` guard for those two fields), whereas a NaN
GRN-number or receipt-date cell is rendered as the empty string in both
places (those two extractions are guarded by `pd.notna`). -/
theorem nan_rendering_c10 (rm : RoleMap) (row : Row) :
    (rowGet row rm.part = some Cell.nan →
      (makeLabel rm row).part_no = "nan" ∧
      containsSeg ("\nPart No: " ++ "nan").data
        (makeLabel rm row).qrPayload.data) ∧
    (rowGet row rm.desc = some Cell.nan →
      (makeLabel rm row).descShown = "nan" ∧
      containsSeg ("\nDescription: " ++ "nan").data
        (makeLabel rm row).qrPayload.data) ∧
    (∀ c, rm.grn = some c → rowGet row c = some Cell.nan →
      (makeLabel rm row).grn_no = "" ∧
      (makeLabel rm row).qrPayload =
        qr_data "" (extract_part rm.part row) (extract_desc rm.desc row)
          (extract_put_away rm.loc row)
          (clean_receipt_date (extract_receipt_date rm.date row))) ∧
    (∀ c, rm.date = some c → rowGet row c = some Cell.nan →
      (makeLabel rm row).clean_date = "" ∧
      (makeLabel rm row).qrPayload =
        qr_data (extract_grn rm.grn row) (extract_part rm.part row)
          (extract_desc rm.desc row) (extract_put_away rm.loc row) "") := by
  refine ⟨?_, ?_, ?_, ?_⟩
  · intro h
    have hp : extract_part rm.part row = "nan" := by
      simp [extract_part, h, pyStr]
    constructor
    · show extract_part rm.part row = "nan"
      exact hp
    · show containsSeg _ (qr_data (extract_grn rm.grn row)
        (extract_part rm.part row) (extract_desc rm.desc row)
        (extract_put_away rm.loc row)
        (clean_receipt_date (extract_receipt_date rm.date row))).data
      rw [hp, qr_data_part_chunks]
      exact containsSeg_of_chunks _ _ _
  · intro h
    have hd : extract_desc rm.desc row = "nan" := by
      simp [extract_desc, h, pyStr]
    constructor
    · show displayDesc (extract_desc rm.desc row) = "nan"
      rw [hd]
      decide
    · show containsSeg _ (qr_data (extract_grn rm.grn row)
        (extract_part rm.part row) (extract_desc rm.desc row)
        (extract_put_away rm.loc row)
        (clean_receipt_date (extract_receipt_date rm.date row))).data
      rw [hd, qr_data_desc_mid_chunks]
      exact containsSeg_of_chunks _ _ _
  · intro c hc hcell
    have hg : extract_grn rm.grn row = "" := by
      rw [hc]
      simp [extract_grn, hcell, notna]
    constructor
    · show extract_grn rm.grn row = ""
      exact hg
    · show qr_data (extract_grn rm.grn row) (extract_part rm.part row)
        (extract_desc rm.desc row) (extract_put_away rm.loc row)
        (clean_receipt_date (extract_receipt_date rm.date row)) = _
      rw [hg]
  · intro c hc hcell
    have hr : extract_receipt_date rm.date row = "" := by
      rw [hc]
      simp [extract_receipt_date, hcell, notna]
    have hclean : clean_receipt_date (extract_receipt_date rm.date row) = "" := by
      rw [hr]
      decide
    constructor
    · show clean_receipt_date (extract_receipt_date rm.date row) = ""
      exact hclean
    · show qr_data (extract_grn rm.grn row) (extract_part rm.part row)
        (extract_desc rm.desc row) (extract_put_away rm.loc row)
        (clean_receipt_date (extract_receipt_date rm.date row)) = _
      rw [hclean]

/-- Witness for C10: a row whose GRN, part, description and date cells are
all NaN renders `"nan"` for part and description and `""` for GRN and date. -/
theorem nan_rendering_c10_witness :
    rowGet [("G", Cell.nan), ("P", Cell.nan), ("D", Cell.nan),
        ("L", Cell.s "Z1_A"), ("R", Cell.nan)] "P" = some Cell.nan ∧
    (makeLabel ⟨some "G", "P", "D", "L", some "R"⟩
        [("G", Cell.nan), ("P", Cell.nan), ("D", Cell.nan),
          ("L", Cell.s "Z1_A"), ("R", Cell.nan)]).part_no = "nan" ∧
    (makeLabel ⟨some "G", "P", "D", "L", some "R"⟩
        [("G", Cell.nan), ("P", Cell.nan), ("D", Cell.nan),
          ("L", Cell.s "Z1_A"), ("R", Cell.nan)]).descShown = "nan" ∧
    (makeLabel ⟨some "G", "P", "D", "L", some "R"⟩
        [("G", Cell.nan), ("P", Cell.nan), ("D", Cell.nan),
          ("L", Cell.s "Z1_A"), ("R", Cell.nan)]).grn_no = "" ∧
    (makeLabel ⟨some "G", "P", "D", "L", some "R"⟩
        [("G", Cell.nan), ("P", Cell.nan), ("D", Cell.nan),
          ("L", Cell.s "Z1_A"), ("R", Cell.nan)]).clean_date = "" := by
  have h := nan_rendering_c10 ⟨some "G", "P", "D", "L", some "R"⟩
    [("G", Cell.nan), ("P", Cell.nan), ("D", Cell.nan),
      ("L", Cell.s "Z1_A"), ("R", Cell.nan)]
  exact ⟨by decide, (h.1 (by decide)).1, (h.2.1 (by decide)).1,
    (h.2.2.1 "G" rfl (by decide)).1, (h.2.2.2 "R" rfl (by decide)).1⟩

end Putaway

namespace Putaway

/-- One reportlab centimetre in points: `cm = inch / 2.54 = 72 / 2.54`.
Lengths are modelled as exact rationals. -/
def cmUnit : ℚ := 3600 / 127

/-- `STICKER_WIDTH = 10 * cm` (src/putaway.py:40). -/
def STICKER_WIDTH : ℚ := 10 * cmUnit

/-- `STICKER_HEIGHT = 15 * cm` (src/putaway.py:41). -/
def STICKER_HEIGHT : ℚ := 15 * cmUnit

/-- `CONTENT_BOX_WIDTH = 10 * cm` (src/putaway.py:45). -/
def CONTENT_BOX_WIDTH : ℚ := 10 * cmUnit

/-- `CONTENT_BOX_HEIGHT = 7.2 * cm` (src/putaway.py:46). -/
def CONTENT_BOX_HEIGHT : ℚ := (72 / 10) * cmUnit

/-- `content_width = CONTENT_BOX_WIDTH - 0.2*cm` (src/putaway.py:170). -/
def content_width : ℚ := CONTENT_BOX_WIDTH - (2 / 10) * cmUnit

/-- Vertical alignment values used by the table styles. -/
inductive VAlign where
  | top
  | middle
deriving DecidableEq, Repr

/-- The geometry of the bottom row of a label (src/putaway.py:284-347): the
date cell (split into label and value sub-cells), the QR cell, the height of
the combined row, and the row's vertical alignment. -/
structure BottomRowGeom where
  dateWidth : ℚ
  dateLabelWidth : ℚ
  dateValueWidth : ℚ
  dateRowHeight : ℚ
  qrWidth : ℚ
  rowHeight : ℚ
  valign : VAlign
deriving DecidableEq, Repr

/-- The bottom-row layout computation, for configured `date_width_ratio`,
`date_height` and `qr_height` (in centimetres): `date_width = content_width *
date_width_ratio`, `qr_width = content_width - date_width`, date sub-cells at
`date_width*0.4` / `date_width*0.6`, and the combined table built with
`rowHeights=[qr_row_height]` and `VALIGN TOP`. -/
def bottomRow (date_width_ratio date_height qr_height : ℚ) : BottomRowGeom :=
  let date_row_height := date_height * cmUnit
  let qr_row_height := qr_height * cmUnit
  let date_width := content_width * date_width_ratio
  let qr_width := content_width - date_width
  { dateWidth := date_width
    dateLabelWidth := date_width * (4 / 10)
    dateValueWidth := date_width * (6 / 10)
    dateRowHeight := date_row_height
    qrWidth := qr_width
    rowHeight := qr_row_height
    valign := VAlign.top }

/-- Counterexample to claim C8 as stated: with the admissible configuration
`dateWidthRatio = 1/2`, `dateHeight = 3` cm, `qrHeight = 1.5` cm (both slider
ranges allow this), the combined row height is `qrHeight`, which is NOT the
taller of the two configured heights. -/
theorem bottom_row_c8_counterexample :
    (0 < (1 / 2 : ℚ) ∧ (1 / 2 : ℚ) < 1) ∧
    (bottomRow (1 / 2) 3 (3 / 2)).rowHeight ≠
      max (3 * cmUnit) ((3 / 2) * cmUnit) := by
  refine ⟨⟨by norm_num, by norm_num⟩, ?_⟩
  show (3 / 2 : ℚ) * cmUnit ≠ max (3 * cmUnit) ((3 / 2) * cmUnit)
  rw [max_eq_left (by norm_num [cmUnit])]
  norm_num [cmUnit]

/-- Claim C8 as amended: for any `dateWidthRatio` in `(0,1)`, the date cell
is `dateWidthRatio` of the content width with a 40%-wide label sub-cell and
a 60%-wide value sub-cell, the QR cell takes exactly the remaining content
width, and the combined bottom row uses `qrHeight` as its height — which is
the taller of the two configured heights only when `qrHeight ≥ dateHeight`,
as under the defaults — with the date cell top-aligned in the row. -/
theorem bottom_row_c8 (r dh qh : ℚ) (h0 : 0 < r) (h1 : r < 1) :
    (bottomRow r dh qh).dateWidth = r * content_width ∧
    (bottomRow r dh qh).dateLabelWidth = (2 / 5) * (bottomRow r dh qh).dateWidth ∧
    (bottomRow r dh qh).dateValueWidth = (3 / 5) * (bottomRow r dh qh).dateWidth ∧
    (bottomRow r dh qh).dateLabelWidth + (bottomRow r dh qh).dateValueWidth =
      (bottomRow r dh qh).dateWidth ∧
    (bottomRow r dh qh).qrWidth = content_width - (bottomRow r dh qh).dateWidth ∧
    (bottomRow r dh qh).dateWidth + (bottomRow r dh qh).qrWidth = content_width ∧
    0 < (bottomRow r dh qh).dateWidth ∧
    0 < (bottomRow r dh qh).qrWidth ∧
    (bottomRow r dh qh).rowHeight = qh * cmUnit ∧
    (dh ≤ qh → (bottomRow r dh qh).rowHeight =
      max (dh * cmUnit) (qh * cmUnit)) ∧
    (bottomRow r dh qh).valign = VAlign.top := by
  have hcw : (0 : ℚ) < content_width := by
    norm_num [content_width, CONTENT_BOX_WIDTH, cmUnit]
  refine ⟨by simp [bottomRow, mul_comm], by simp [bottomRow]; ring,
    by simp [bottomRow]; ring, by simp [bottomRow]; ring,
    rfl, by simp [bottomRow], ?_, ?_, rfl, ?_, rfl⟩
  · exact mul_pos hcw h0
  · show 0 < content_width - content_width * r
    have : content_width * r < content_width * 1 := by
      exact mul_lt_mul_of_pos_left h1 hcw
    simp only [mul_one] at this
    linarith
  · intro hle
    show qh * cmUnit = _
    rw [max_eq_right]
    have hcm : (0 : ℚ) ≤ cmUnit := by norm_num [cmUnit]
    exact mul_le_mul_of_nonneg_right hle hcm

/-- Witness for the amended C8 at the default configuration
(`dateWidthRatio = 1/2`, `dateHeight = 1.5`, `qrHeight = 2.7`). -/
theorem bottom_row_c8_witness :
    (0 < (1 / 2 : ℚ) ∧ (1 / 2 : ℚ) < 1) ∧
    (bottomRow (1 / 2) (3 / 2) (27 / 10)).dateWidth =
      (1 / 2) * content_width ∧
    (bottomRow (1 / 2) (3 / 2) (27 / 10)).rowHeight = (27 / 10) * cmUnit ∧
    (bottomRow (1 / 2) (3 / 2) (27 / 10)).valign = VAlign.top := by
  have h := bottom_row_c8 (1 / 2) (3 / 2) (27 / 10) (by norm_num) (by norm_num)
  exact ⟨⟨by norm_num, by norm_num⟩, h.1, h.2.2.2.2.2.2.2.2.1,
    h.2.2.2.2.2.2.2.2.2.2⟩

end Putaway

namespace Putaway

/-- A flowable appended to `all_elements`: one record's label content
(aggregating the four per-record tables) or a `PageBreak`. -/
inductive Flowable where
  | label (l : Label) : Flowable
  | pageBreak : Flowable
deriving DecidableEq, Repr

/-- The element stream of the sticker loop (src/putaway.py:179-360): for each
row its label, followed by a `PageBreak` for every row except the last
(`if index < len(df) - 1`). -/
def buildElements (rm : RoleMap) : List Row → List Flowable
  | [] => []
  | [r] => [Flowable.label (makeLabel rm r)]
  | r :: rest =>
    Flowable.label (makeLabel rm r) :: Flowable.pageBreak ::
      buildElements rm rest

/-- Page semantics of the document build: the flowable stream is cut into
pages at `PageBreak` markers (each label fits its page; the backend is the
external capability assumed by the spec to place one laid-out label per
page). -/
def pagesOf : List Flowable → List (List Flowable)
  | [] => [[]]
  | .pageBreak :: fs => [] :: pagesOf fs
  | .label l :: fs =>
    match pagesOf fs with
    | [] => [[Flowable.label l]]
    | p :: ps => (Flowable.label l :: p) :: ps

/-- The border rectangle drawn by the per-page callback. -/
structure BorderRect where
  x : ℚ
  y : ℚ
  w : ℚ
  h : ℚ
  lineWidth : ℚ
  strokeAlpha : ℚ
deriving DecidableEq, Repr

/-- `draw_border` (src/putaway.py:107-121): the rectangle at
`(x_offset + leftMargin, y_offset)` with size `(CONTENT_BOX_WIDTH - 0.2*cm,
CONTENT_BOX_HEIGHT)`, line width 1.8, stroke alpha 0.95. -/
def draw_border : BorderRect :=
  let x_offset := (STICKER_WIDTH - CONTENT_BOX_WIDTH) / 2
  let y_offset := STICKER_HEIGHT - CONTENT_BOX_HEIGHT - (2 / 10) * cmUnit
  let leftMargin := (1 / 10) * cmUnit
  { x := x_offset + leftMargin
    y := y_offset
    w := CONTENT_BOX_WIDTH - (2 / 10) * cmUnit
    h := CONTENT_BOX_HEIGHT
    lineWidth := 9 / 5
    strokeAlpha := 19 / 20 }

/-- `doc.build(all_elements, onFirstPage=draw_border, onLaterPages=draw_border)`
(src/putaway.py:365): the overlay drawn on page `i`. -/
def overlayForPage (i : Nat) : BorderRect :=
  let onFirstPage := draw_border
  let onLaterPages := draw_border
  if i = 0 then onFirstPage else onLaterPages

lemma pagesOf_ne_nil : ∀ fs : List Flowable, pagesOf fs ≠ []
  | [] => by simp [pagesOf]
  | .pageBreak :: fs => by simp [pagesOf]
  | .label l :: fs => by
      unfold pagesOf
      cases pagesOf fs <;> simp

lemma pagesOf_buildElements (rm : RoleMap) :
    ∀ rows : List Row, rows ≠ [] →
      pagesOf (buildElements rm rows) =
        rows.map (fun r => [Flowable.label (makeLabel rm r)])
  | [], h => absurd rfl h
  | [r], _ => rfl
  | r :: s :: t, _ => by
      have ih := pagesOf_buildElements rm (s :: t) (by simp)
      show pagesOf (Flowable.label (makeLabel rm r) :: Flowable.pageBreak ::
        buildElements rm (s :: t)) = _
      have hbreak : pagesOf (Flowable.pageBreak :: buildElements rm (s :: t)) =
          [] :: pagesOf (buildElements rm (s :: t)) := rfl
      unfold pagesOf
      rw [hbreak, ih]
      rfl

/-- Claim C5: for a dataset with at least one record, the flowable stream
paginates into exactly one page per record, in input order, page `i` holding
exactly the label composed from record `i` (a page break separates
consecutive labels and none follows the last), and every page receives the
identical border overlay. -/
theorem label_sequencer_c5 (rm : RoleMap) (rows : List Row)
    (h : rows ≠ []) :
    pagesOf (buildElements rm rows) =
      rows.map (fun r => [Flowable.label (makeLabel rm r)]) ∧
    (pagesOf (buildElements rm rows)).length = rows.length ∧
    (∀ i j, overlayForPage i = overlayForPage j) ∧
    (∀ i, overlayForPage i = draw_border) := by
  refine ⟨pagesOf_buildElements rm rows h, ?_, ?_, ?_⟩
  · rw [pagesOf_buildElements rm rows h, List.length_map]
  · intro i j
    unfold overlayForPage
    by_cases hi : i = 0 <;> by_cases hj : j = 0 <;> simp [hi, hj]
  · intro i
    unfold overlayForPage
    by_cases hi : i = 0 <;> simp [hi]

/-- Witness for C5: a concrete two-record dataset yields exactly two pages,
each holding its record's label, with the common border overlay. -/
theorem label_sequencer_c5_witness :
    ([[("P", Cell.s "A")], [("P", Cell.s "B")]] : List Row) ≠ [] ∧
    pagesOf (buildElements ⟨none, "P", "P", "P", none⟩
        [[("P", Cell.s "A")], [("P", Cell.s "B")]]) =
      [[Flowable.label (makeLabel ⟨none, "P", "P", "P", none⟩
          [("P", Cell.s "A")])],
        [Flowable.label (makeLabel ⟨none, "P", "P", "P", none⟩
          [("P", Cell.s "B")])]] :=
  ⟨by simp,
    (label_sequencer_c5 ⟨none, "P", "P", "P", none⟩
      [[("P", Cell.s "A")], [("P", Cell.s "B")]] (by simp)).1⟩

end Putaway

namespace Putaway

/-- The tabular dataset handed to `generate_sticker_labels`: column names
plus the rows (each row keyed by the column names). -/
structure Dataset where
  cols : List String
  rows : List Row
deriving DecidableEq, Repr

/-- Line 124, `df.columns = [col.upper() if isinstance(col, str) else col for
col in df.columns]`: an in-place overwrite of the dataframe's column labels.
Renaming the columns also renames the index of every row Series produced by
`df.iterrows()`, so the row keys are uppercased along with the header. -/
def normalizeColumns (df : Dataset) : Dataset :=
  { cols := upperCols df.cols
    rows := df.rows.map (fun r => r.map (fun kv => (pyUpper kv.1, kv.2))) }

/-- The run of `generate_sticker_labels` up to (but excluding) the external
`doc.build` call: uppercase the columns in place, resolve the five roles
(raising on a zero-column dataset), then assemble the flowable stream that
is submitted to the document builder.  There is no record-count check
anywhere on this path. -/
def runPreBuild (df : Dataset) : Except RunError (List Flowable) :=
  let df := normalizeColumns df
  match resolveAll df.cols with
  | .error e => .error e
  | .ok rm => .ok (buildElements rm df.rows)

/-- Counterexample to claim C6 as stated: a dataset with two columns and zero
records is NOT rejected — the run raises no error before layout and submits
an empty flowable list to the document builder, rather than failing with
InvalidDataset. -/
theorem invalid_dataset_c6_counterexample :
    runPreBuild ⟨["A", "B"], []⟩ = .ok [] ∧
    ∀ e, runPreBuild ⟨["A", "B"], []⟩ ≠ .error e := by
  constructor
  · rfl
  · intro e h
    cases h

/-- Claim C6 as amended: a dataset with zero columns aborts before any layout
with an index-lookup error (the eager `cols[0]` fallback of the part-number
chain; the spec's InvalidDataset) and no flowables are produced; a dataset
with zero records but at least one column passes every pre-layout check and
reaches the external document build with an empty element list. -/
theorem invalid_dataset_c6 (df : Dataset) :
    (df.cols = [] → runPreBuild df = .error .indexError) ∧
    (df.rows = [] → df.cols ≠ [] →
      ∃ rm, resolveAll (normalizeColumns df).cols = .ok rm ∧
        runPreBuild df = .ok []) := by
  constructor
  · intro h
    show (match resolveAll (normalizeColumns df).cols with
      | .error e => (.error e : Except RunError (List Flowable))
      | .ok rm => .ok (buildElements rm (normalizeColumns df).rows)) = _
    have : (normalizeColumns df).cols = [] := by
      simp [normalizeColumns, upperCols, h]
    rw [this]
    rfl
  · intro hrows hcols
    have : (normalizeColumns df).cols ≠ [] := by
      simp [normalizeColumns, upperCols]
      exact hcols
    obtain ⟨c0, rest, hcr⟩ := List.exists_cons_of_ne_nil this
    have hok : ∃ rm, resolveAll (normalizeColumns df).cols = .ok rm := by
      rw [hcr]
      exact ⟨_, rfl⟩
    obtain ⟨rm, hrm⟩ := hok
    refine ⟨rm, hrm, ?_⟩
    show (match resolveAll (normalizeColumns df).cols with
      | .error e => (.error e : Except RunError (List Flowable))
      | .ok rm => .ok (buildElements rm (normalizeColumns df).rows)) = _
    rw [hrm]
    have : (normalizeColumns df).rows = [] := by
      simp [normalizeColumns, hrows]
    rw [this]
    rfl

/-- Witness for the amended C6: the zero-column dataset errors out before
layout; the two-column zero-record dataset reaches the build with no pages
and no error. -/
theorem invalid_dataset_c6_witness :
    (Dataset.mk [] [] ).cols = [] ∧
    runPreBuild ⟨[], []⟩ = .error .indexError ∧
    (Dataset.mk ["A", "B"] []).rows = [] ∧
    (Dataset.mk ["A", "B"] []).cols ≠ [] ∧
    runPreBuild ⟨["A", "B"], []⟩ = .ok [] := by
  have h1 := (invalid_dataset_c6 ⟨[], []⟩).1 rfl
  have h2 := (invalid_dataset_c6 ⟨["A", "B"], []⟩).2 rfl (by simp)
  exact ⟨rfl, h1, rfl, by simp, h2.choose_spec.2⟩

/-- Counterexample to claim C9 as stated: identifying the columns mutates the
dataset — the column labels are overwritten with their uppercased forms, so
the original casing is not preserved. -/
theorem resolver_purity_c9_counterexample :
    normalizeColumns ⟨["PartNumber", "Desc"], []⟩ ≠
      ⟨["PartNumber", "Desc"], []⟩ ∧
    (normalizeColumns ⟨["PartNumber", "Desc"], []⟩).cols =
      ["PARTNUMBER", "DESC"] := by
  constructor
  · decide
  · decide

/-- Claim C9 as amended: column identification overwrites the dataset's
column labels with their uppercase forms in place (value lookup afterwards
uses the uppercased names); the rows' cell values are untouched; and role
resolution itself is a pure function of the column-name list — two datasets
with the same column names resolve identically, whatever their rows. -/
theorem resolver_purity_c9 (df : Dataset) :
    (normalizeColumns df).cols = upperCols df.cols ∧
    (normalizeColumns df).rows.map (fun r => r.map Prod.snd) =
      df.rows.map (fun r => r.map Prod.snd) ∧
    (∀ df' : Dataset, df.cols = df'.cols →
      resolveAll (normalizeColumns df).cols =
        resolveAll (normalizeColumns df').cols) := by
  refine ⟨rfl, ?_, ?_⟩
  · show (df.rows.map (fun r => r.map (fun kv => (pyUpper kv.1, kv.2)))).map
      (fun r => r.map Prod.snd) = _
    rw [List.map_map]
    apply List.map_congr_left
    intro r _
    show (r.map (fun kv => (pyUpper kv.1, kv.2))).map Prod.snd = r.map Prod.snd
    rw [List.map_map]
    rfl
  · intro df' hcols
    show resolveAll (upperCols df.cols) = resolveAll (upperCols df'.cols)
    rw [hcols]

/-- Witness for the amended C9: two datasets sharing the headers but with
different rows resolve identically, and row values survive normalization. -/
theorem resolver_purity_c9_witness :
    (Dataset.mk ["PartNumber"] []).cols =
      (Dataset.mk ["PartNumber"] [[("PartNumber", Cell.s "X-1")]]).cols ∧
    resolveAll (normalizeColumns ⟨["PartNumber"], []⟩).cols =
      resolveAll (normalizeColumns
        ⟨["PartNumber"], [[("PartNumber", Cell.s "X-1")]]⟩).cols ∧
    (normalizeColumns
        ⟨["PartNumber"], [[("PartNumber", Cell.s "X-1")]]⟩).rows.map
      (fun r => r.map Prod.snd) = [[Cell.s "X-1"]] := by
  have h := resolver_purity_c9 ⟨["PartNumber"], []⟩
  exact ⟨rfl,
    h.2.2 ⟨["PartNumber"], [[("PartNumber", Cell.s "X-1")]]⟩ rfl,
    by decide⟩

end Putaway
